import Mathlib

/-!
Verification model of the beartype hard core: the type-hint registry
("beartypistry", `beartype/_decor/_typistry.py`), the package-scope cache
(`beartype/claw/_clawpackagenames.py`) and the AST rewriter
(`beartype/claw/_clawast.py`), as a shallow embedding in Lean.

Python dictionaries are modelled as association lists with first-match
lookup (keys are kept unique by the operations themselves, mirroring the
source's guards), Python exceptions as `Except` error values, and in-place
mutation of the process-wide singletons as explicit state passing.
-/

namespace Beartype

/-! ## Python values appearing as registry keys and values

A registry value is a class (carrying its fully-qualified classname and
whether it is a PEP-compliant `typing`-style class), a tuple of values, or
some other object.  A registry key as passed to `__setitem__` is a string
or some non-string object. -/

/-- Model of a Python object in a beartypistry position: a class (with its
fully-qualified classname as computed by `get_object_classname`, and a flag
recording whether the class is a PEP-compliant `typing`-style class), a
tuple, or any other object. -/
inductive Hint where
  | cls (clsname : String) (pep : Bool)
  | tup (elems : List Hint)
  | other
deriving Repr

/-- Model of an arbitrary Python object in a dictionary-key position:
either a string or some non-string object (the only distinction
`Beartypistry.__setitem__` makes of its key before the string checks). -/
inductive DictKey where
  | str (s : String)
  | notStr
deriving DecidableEq, Repr

/-- Exceptions raised by the typistry submodule:
`_BeartypeDecorBeartypistryException` (store-guard violations),
`BeartypeDecorHintForwardRefException` (forward-reference validation at
registration time) and `BeartypeCallHintForwardRefException`
(forward-reference resolution at lookup time). -/
inductive TypistryErr where
  | beartypistryException (msg : String)
  | forwardRefDecor (msg : String)
  | forwardRefCall (msg : String)
deriving DecidableEq, Repr

/-- Association-list lookup, the model of Python `dict.get` /
`dict.__contains__` on the string-keyed dictionaries of this code. -/
def alookup {α : Type} : List (String × α) → String → Option α
  | [], _ => none
  | (k, v) :: rest, key => if k = key then some v else alookup rest key

/-- The beartypistry store: insertion-ordered string-keyed mapping. -/
abbrev Typistry := List (String × Hint)

/-- Membership test on the store (`hint_name in self`). -/
def tcontains (st : Typistry) (k : String) : Bool := (alookup st k).isSome

/-- Python `str.startswith`, on the character lists underlying strings. -/
def str_startswith (s pre : String) : Bool := pre.data.isPrefixOf s.data

/-! ## External collaborators of the typistry

`is_classname_builtin` (from `beartype._util.utilclass`) and the
PEP-noncompliance test for tuple items (from
`beartype._util.hint.nonpep.utilhintnonpeptest`) are not part of the
repository snapshot; they are modelled from the spec. -/

/-- Modelled from the spec: the reserved set of "built-in, globally
nameable without import" classes ("built-in classes instead use their
unqualified short name as key"); the fully-qualified names of the
builtin classes, as `beartype._util.utilclass.is_classname_builtin` tests
them (that submodule is not in the repository snapshot). -/
def builtin_classnames : List String :=
  ["builtins.bool", "builtins.bytearray", "builtins.bytes",
   "builtins.complex", "builtins.dict", "builtins.float",
   "builtins.frozenset", "builtins.int", "builtins.list", "builtins.set",
   "builtins.str", "builtins.tuple", "builtins.type"]

/-- Modelled from the spec: true only if this fully-qualified classname
names a builtin class. -/
def is_classname_builtin (clsname : String) : Bool :=
  builtin_classnames.contains clsname

/-- Modelled from the spec: the store guard's per-item test for tuple
values — "every element must be a plain class (rejecting any
structurally-generic/compliant-with-richer-typing-semantics elements)";
strings are likewise rejected inside stored tuples
(`die_unless_hint_nonpep` is called with `is_str_valid=False`). -/
def is_hint_nonpep_item : Hint → Bool
  | .cls _ pep => !pep
  | _ => false

/-! ## Name syntax and the dynamic importer
(`beartype/_util/mod/utilmodule.py`) -/

/-- Splitting accumulator for `py_split_dot`: Python `str.split(c)` on the
character list underlying a string. -/
def split_on_char_aux (c : Char) : List Char → List Char → List String
  | acc, [] => [String.mk acc.reverse]
  | acc, d :: rest =>
    if d = c then String.mk acc.reverse :: split_on_char_aux c [] rest
    else split_on_char_aux c (d :: acc) rest

/-- Python `name.split('.')`, as both the typistry and the package cache
use it (for the empty string this yields `[""]`, as in Python). -/
def py_split_dot (s : String) : List String := split_on_char_aux '.' [] s.data

/-- Python `'.'.join(parts)`, the inverse used when re-assembling a module
name from leading basenames. -/
def str_join_dot (parts : List String) : String :=
  String.mk (List.intercalate ['.'] (parts.map String.data))

/-- Modelled from the spec: a single valid Python identifier (first
character alphabetic or underscore, rest alphanumeric or underscore). -/
def is_py_identifier (s : String) : Bool :=
  match s.data with
  | [] => false
  | c :: cs => (c.isAlpha || c == '_') && cs.all (fun d => d.isAlphanum || d == '_')

/-- Modelled from the spec: `beartype._util.text.utiltextident.is_identifier`
(not in the repository snapshot) — a "."-delimited concatenation of valid
Python identifiers. -/
def is_identifier (s : String) : Bool :=
  (py_split_dot s).all is_py_identifier

/-- Modelled from the spec: `die_unless_module_attr_name`'s syntax test (the
`utilmodtest` submodule is not in the repository snapshot) — a
syntactically valid fully-qualified attribute path, i.e. a dotted
identifier sequence qualified by at least one module prefix (the source
notes a validated name is guaranteed to "contain one or more '.'
delimiters"). -/
def is_module_attr_name (s : String) : Bool :=
  is_identifier s && s.data.contains '.'

/-- Python `str.rpartition('.')` as used by `import_module_attr_or_none`:
the fully-qualified module name before the last dot (empty if no dot) and
the unqualified attribute basename after it. -/
def rpartition_dot (s : String) : String × String :=
  let parts := py_split_dot s
  (str_join_dot parts.dropLast, parts.getLastD s)

/-- The importable world: fully-qualified module names mapped to their
module-scope attributes. `import_module` succeeds exactly on the listed
modules (arbitrary import-time exceptions of third-party module code are
out of scope of the claims and not modelled). -/
abbrev PyEnv := List (String × List (String × Hint))

/-- Model of `import_module_attr_or_none` (utilmodule.py): validate the
name syntactically (raising `exc` otherwise), split it on the last dot
and import the module (raising `exc` when no such module exists), then
`getattr(module, basename, None)`. -/
def import_module_attr_or_none (exc : String → TypistryErr) (env : PyEnv)
    (module_attr_name : String) : Except TypistryErr (Option Hint) :=
  if is_module_attr_name module_attr_name then
    let (module_name, attr_basename) := rpartition_dot module_attr_name
    match alookup env module_name with
    | none => .error (exc ("Module not found: " ++ module_name))
    | some attrs => .ok (alookup attrs attr_basename)
  else
    .error (exc ("Invalid module attribute name: " ++ module_attr_name))

/-- Model of `import_module_attr` (utilmodule.py): as
`import_module_attr_or_none`, but a missing attribute raises `exc`. -/
def import_module_attr (exc : String → TypistryErr) (env : PyEnv)
    (module_attr_name : String) : Except TypistryErr Hint :=
  match import_module_attr_or_none exc env module_attr_name with
  | .error e => .error e
  | .ok none => .error (exc ("Module attribute not found: " ++ module_attr_name))
  | .ok (some a) => .ok a

/-! ## The beartypistry store guard and lookup -/

/-- Beartypistry tuple key prefix: the magic substring prefixing the keys
of all pairs whose values are tuples. -/
def TYPISTRY_HINT_NAME_TUPLE_PREFIX : String := "+"

/-- Snippet prefixing every returned registry-lookup expression. The
parameter name stems from `codesnip.PARAM_NAME_TYPISTRY` (not in the
snapshot); its exact spelling is taken from the source docstrings, which
name the private `__beartypistry` parameter. -/
def CODE_TYPISTRY_HINT_NAME_TO_HINT_PREFIX : String := "__beartypistry["

/-- Snippet suffixing every returned registry-lookup expression. -/
def CODE_TYPISTRY_HINT_NAME_TO_HINT_SUFFIX : String := "]"

/-- Python `repr` of a string, as interpolated into returned code
fragments (quoting only; escaping does not arise for validated names). -/
def py_str_repr (s : String) : String := "\x27" ++ s ++ "\x27"

/-- The registry-lookup code fragment returned by every registrar:
`__beartypistry['<key>']`. -/
def typistry_code (key : String) : String :=
  CODE_TYPISTRY_HINT_NAME_TO_HINT_PREFIX ++ py_str_repr key ++
    CODE_TYPISTRY_HINT_NAME_TO_HINT_SUFFIX

/-- Model of `Beartypistry.__setitem__`: raise unless the key is a string
not already registered; a class value must be keyed by its own
fully-qualified classname unless that classname is builtin; a tuple value
must contain only PEP-noncompliant plain classes and be keyed with the
tuple prefix; any other value is rejected; otherwise the pair is stored. -/
def Beartypistry_setitem (st : Typistry) (hint_name : DictKey) (hint : Hint) :
    Except TypistryErr Typistry :=
  match hint_name with
  | .notStr => .error (.beartypistryException "Beartypistry key not string.")
  | .str name =>
    if tcontains st name then
      .error (.beartypistryException
        ("Beartypistry key already registered (key collision): " ++ name))
    else
      match hint with
      | .cls clsname _pep =>
        if name ≠ clsname ∧ is_classname_builtin clsname = false then
          .error (.beartypistryException
            ("Beartypistry key not the fully-qualified classname: " ++ name))
        else
          .ok (st ++ [(name, hint)])
      | .tup elems =>
        if (elems.all is_hint_nonpep_item) = false then
          .error (.beartypistryException "Beartypistry value not PEP-noncompliant.")
        else if str_startswith name TYPISTRY_HINT_NAME_TUPLE_PREFIX = false then
          .error (.beartypistryException
            ("Beartypistry key not prefixed for tuple: " ++ name))
        else
          .ok (st ++ [(name, hint)])
      | .other =>
        .error (.beartypistryException
          ("Beartypistry key value invalid (neither type nor tuple): " ++ name))

/-- Model of `Beartypistry.__missing__`: dynamically import the module
attribute named by the missing key (raising
`BeartypeCallHintForwardRefException` on failure), raise unless that
attribute is a class, and return that class.  Note the method
body contains no insertion into the dictionary. -/
def Beartypistry_missing (env : PyEnv) (hint_classname : String) :
    Except TypistryErr Hint :=
  match import_module_attr TypistryErr.forwardRefCall env hint_classname with
  | .error e => .error e
  | .ok hint_class =>
    match hint_class with
    | .cls c p => .ok (.cls c p)
    | _ => .error (.forwardRefCall
        ("Forward reference value not class: " ++ hint_classname))

/-- Python dictionary subscripting `bear_typistry[key]` on the
`Beartypistry` dict subclass: a present key returns its stored value; a
missing key makes `dict.__getitem__` call `__missing__` and return its
result. CPython does **not** insert that result into the dictionary
(`collections.defaultdict.__missing__` performs its own `self[key] = ...`
assignment; `Beartypistry.__missing__` performs none), so the store comes
back unchanged in the missing case. -/
def Beartypistry_getitem (env : PyEnv) (st : Typistry) (key : String) :
    Except TypistryErr (Typistry × Hint) :=
  match alookup st key with
  | some v => .ok (st, v)
  | none =>
    match Beartypistry_missing env key with
    | .error e => .error e
    | .ok c => .ok (st, c)

/-! ## The three registrars -/

/-- Model of `register_typistry_forwardref`: validate the name as a
fully-qualified attribute path (raising
`BeartypeDecorHintForwardRefException` otherwise) and return the lookup
expression.  The function touches neither the store nor the importable
world — its signature mentions neither — deferring actual resolution to
`Beartypistry_missing` on first lookup. -/
def register_typistry_forwardref (hint_classname : String) :
    Except TypistryErr String :=
  if is_module_attr_name hint_classname then
    .ok (typistry_code hint_classname)
  else
    .error (.forwardRefDecor
      ("Forward reference not fully-qualified classname: " ++ hint_classname))

/-- Model of `register_typistry_type`: raise unless the argument is a
class; a builtin class is returned by its unqualified basename without
touching the store; otherwise the class is stored under its
fully-qualified classname via the store guard and the lookup expression is
returned. -/
def register_typistry_type (st : Typistry) (hint : Hint) :
    Except TypistryErr (String × Typistry) :=
  match hint with
  | .cls clsname _pep =>
    if is_classname_builtin clsname then
      .ok ((rpartition_dot clsname).2, st)
    else
      match Beartypistry_setitem st (.str clsname) hint with
      | .error e => .error e
      | .ok st2 => .ok (typistry_code clsname, st2)
  | _ => .error (.beartypistryException "Beartypistry hint not class.")

/-- Disambiguation loop of `register_typistry_tuple`: while the name
collides with an existing key of the store, append the marker character
`'~'` and retry.  The loop is written with an explicit iteration bound of
`st.length + 1` candidate names; since the candidates are pairwise
distinct (their lengths strictly increase), at most `st.length` of them
can collide with existing keys, so the bound is never reached
(`uniquify_name_fresh` below). -/
def uniquify_name_loop : Nat → Typistry → String → String
  | 0, _, hint_name => hint_name
  | fuel + 1, st, hint_name =>
    if tcontains st hint_name then uniquify_name_loop fuel st (hint_name ++ "~")
    else hint_name

/-- The disambiguated beartypistry key under which
`register_typistry_tuple` finally stores a tuple. -/
def uniquify_name (st : Typistry) (hint_name : String) : String :=
  uniquify_name_loop (st.length + 1) st hint_name

/-- Model of `register_typistry_tuple`: raise unless the argument is a
tuple; a 1-tuple degrades to `register_typistry_type` on its sole element;
otherwise, unless the caller guarantees uniqueness, the tuple is
deduplicated by coercion through a set, the key is synthesized as the
tuple prefix followed by the decimal rendering of the tuple's hash,
disambiguated while it collides with an existing key, and the tuple is
stored under the final key via the store guard.  The model is
parameterized by `pyhash` (Python's `hash` on a tuple of classes, which
the source does not control) and by `pyset_dedup` (the coercion
`tuple(set(hint))`, whose resulting element order CPython leaves
unspecified).  The source function is memoized by argument value, so each
call it actually executes sees a tuple distinct from all previously
registered ones; the model states each executed call explicitly. -/
def register_typistry_tuple (pyhash : List Hint → Int)
    (pyset_dedup : List Hint → List Hint) (st : Typistry) (hint : Hint)
    (is_types_unique : Bool) : Except TypistryErr (String × Typistry) :=
  match hint with
  | .tup elems =>
    match elems with
    | [e] => register_typistry_type st e
    | _ =>
      let elems2 := if is_types_unique then elems else pyset_dedup elems
      let base := TYPISTRY_HINT_NAME_TUPLE_PREFIX ++ toString (pyhash elems2)
      let hint_name := uniquify_name st base
      match Beartypistry_setitem st (.str hint_name) (.tup elems2) with
      | .error e => .error e
      | .ok st2 => .ok (typistry_code hint_name, st2)
  | _ => .error (.beartypistryException "Beartypistry tuple not tuple.")

/-- Success test on a store insertion, used to state when the guard
raises. -/
def exceptIsOk : Except TypistryErr Typistry → Bool
  | .ok _ => true
  | .error _ => false

/-- The unqualified short names of the builtin classes (the reserved key
set of the spec's "built-in-short-name exemption"). -/
def builtin_short_names : List String :=
  builtin_classnames.map (fun c => (rpartition_dot c).2)

/-- The error condition of `Beartypistry.__setitem__` as the claim (and
the spec) words it, written from the spec's words for comparison: in the
class case the exemption is keyed on the KEY matching the reserved set of
built-in short names. -/
def setitem_error_claimed (st : Typistry) (key : DictKey) (hint : Hint) :
    Bool :=
  match key with
  | .notStr => true
  | .str name =>
    tcontains st name ||
    (match hint with
     | .cls clsname _ =>
       (name != clsname) && !(builtin_short_names.contains name)
     | .tup elems =>
       !(str_startswith name TYPISTRY_HINT_NAME_TUPLE_PREFIX) ||
         !(elems.all is_hint_nonpep_item)
     | .other => true)

/-- The error condition of `Beartypistry.__setitem__` as the source
implements it: identical to `setitem_error_claimed` except that in the
class case the exemption is keyed on the class's own fully-qualified
classname being that of a builtin class. -/
def setitem_error_actual (st : Typistry) (key : DictKey) (hint : Hint) :
    Bool :=
  match key with
  | .notStr => true
  | .str name =>
    tcontains st name ||
    (match hint with
     | .cls clsname _ =>
       (name != clsname) && !(is_classname_builtin clsname)
     | .tup elems =>
       !(str_startswith name TYPISTRY_HINT_NAME_TUPLE_PREFIX) ||
         !(elems.all is_hint_nonpep_item)
     | .other => true)

/-- What a forward-reference name resolves to at lookup time: the class
that `import_module_attr` yields, when the import succeeds and yields a
class; `none` exactly when `__missing__` would raise the
resolvable-reference error. -/
def resolve_class (env : PyEnv) (name : String) : Option Hint :=
  match import_module_attr TypistryErr.forwardRefCall env name with
  | .ok (.cls c p) => some (.cls c p)
  | _ => none

/-! ## The package-scope cache (`beartype/claw/_clawpackagenames.py`) -/

/-- Model of a `BeartypeConf` configuration value: opaque to this core and
compared only by identity (`is not`), so distinct values stand for
distinct configuration objects. -/
abbrev Conf := Nat

/-- Model of `_PackageBasenameToSubpackagesDict`: a node of the package
name cache, carrying the optional `conf_if_registered` slot and the
dictionary mapping each subpackage basename to its subcache. -/
inductive PkgTrie where
  | node (conf_if_registered : Option Conf)
      (children : List (String × PkgTrie))

/-- The `conf_if_registered` slot of a cache node. -/
def PkgTrie.conf : PkgTrie → Option Conf
  | .node c _ => c

/-- The basename-to-subcache dictionary of a cache node. -/
def PkgTrie.children : PkgTrie → List (String × PkgTrie)
  | .node _ cs => cs

/-- The empty cache node, as `_PackageBasenameToSubpackagesDict()`
constructs it. -/
def PkgTrie.empty : PkgTrie := .node none []

/-- Exceptions of the claw registration API
(`BeartypeClawRegistrationException`); the conflict case carries the old
and new configurations its message reports. -/
inductive ClawErr where
  | registrationException (msg : String)
  | registrationConflict (conf_old conf_new : Conf)
deriving DecidableEq, Repr

/-- Python dictionary assignment `children[b] = t`: replace the value of an
existing key in place, else append the new pair. -/
def setChild : List (String × PkgTrie) → String → PkgTrie →
    List (String × PkgTrie)
  | [], b, t => [(b, t)]
  | (k, v) :: rest, b, t =>
    if k = b then (k, t) :: rest else (k, v) :: setChild rest b t

/-- The per-name registration walk of `register_packages`: descend the
cache along the basenames, creating empty subcaches for missing segments;
at the terminal node set `conf_if_registered` if unset, silently no-op if
it is set to the same configuration, and raise the conflict error naming
the old and new configurations otherwise.  (The source mutates the global
cache in place; on the conflict the nodes created for earlier segments
stay created, which the functional result of the error case simply does
not report — no claim observes the cache after a raised conflict.) -/
def registerBasenames (conf : Conf) : PkgTrie → List String →
    Except ClawErr PkgTrie
  | t, [] =>
    match t.conf with
    | none => .ok (.node (some conf) t.children)
    | some conf_curr =>
      if conf_curr ≠ conf then .error (.registrationConflict conf_curr conf)
      else .ok t
  | t, b :: rest =>
    let sub := match alookup t.children b with
               | some s => s
               | none => PkgTrie.empty
    match registerBasenames conf sub rest with
    | .error e => .error e
    | .ok sub2 => .ok (.node t.conf (setChild t.children b sub2))

/-- The registration loop of `register_packages` over the validated
names, threading the mutated cache and stopping at the first raised
conflict. -/
def register_packages_each (conf : Conf) : PkgTrie → List String →
    Except ClawErr PkgTrie
  | t, [] => .ok t
  | t, n :: rest =>
    match registerBasenames conf t (py_split_dot n) with
    | .error e => .error e
    | .ok t2 => register_packages_each conf t2 rest

/-- Model of `register_packages`: validate every name before any mutation
(a non-`BeartypeConf` configuration and a non-iterable argument are ruled
out by typing; a single string argument is modelled by the caller passing
a one-element list, as the source wraps it in a 1-tuple), raising on an
empty iterable or on any name that is not a "."-delimited Python
identifier; then register each name in turn. -/
def register_packages (root : PkgTrie) (package_names : List String)
    (conf : Conf) : Except ClawErr PkgTrie :=
  if package_names.isEmpty then
    .error (.registrationException "Package names empty.")
  else if (package_names.all is_identifier) = false then
    .error (.registrationException
      "Package name invalid (not dot-delimited Python identifier).")
  else register_packages_each conf root package_names

/-- The configuration carried by the node at the end of a path of the
cache, if the whole path exists and that node is configured. -/
def terminal_conf : PkgTrie → List String → Option Conf
  | t, [] => t.conf
  | t, b :: rest =>
    match alookup t.children b with
    | none => none
    | some sub => terminal_conf sub rest

/-- The scanning loop of `is_package_registered`: walk the dotted name
one basename at a time; a missing segment breaks out and falls through to
`return False`.  The `elif` guard of the source tests
`_package_basename_to_subpackages.conf_if_registered` — the configuration
slot of the global ROOT cache, not of the visited subcache — which the
model reproduces verbatim by threading `root` through the walk. -/
def walk_registered (root : PkgTrie) : PkgTrie → List String → Bool
  | _, [] => false
  | curr, b :: rest =>
    match alookup curr.children b with
    | none => false
    | some sub =>
      if (root.conf).isSome then true
      else walk_registered root sub rest

/-- Model of `is_package_registered`: short-circuit to true when the root
cache carries a configuration (global registration), else run the
scanning loop over the name's basenames. -/
def is_package_registered (root : PkgTrie) (package_name : String) : Bool :=
  if (root.conf).isSome then true
  else walk_registered root root (py_split_dot package_name)

/-- Model of `is_packages_registered_any`:
`bool(_package_basename_to_subpackages)`, i.e. the truthiness of the root
dictionary, which holds only the children (the `conf_if_registered` slot
is an instance variable, not a dictionary entry). -/
def is_packages_registered_any (root : PkgTrie) : Bool :=
  !(root.children).isEmpty

/-! ## The AST rewriter (`beartype/claw/_clawast.py`) -/

/-- Source code metadata of an AST node: beginning and ending line and
column numbers. -/
structure SrcLoc where
  lineno : Int
  col_offset : Int
  end_lineno : Int
  end_col_offset : Int
deriving DecidableEq, Repr

/-- A decorator expression in a `decorator_list`: the `Name(id, Load())`
nodes the rewriter appends, or any other decorator expression. -/
inductive Deco where
  | nameLoad (id : String) (loc : Option SrcLoc)
  | otherDeco (loc : Option SrcLoc)
deriving DecidableEq, Repr

/-- Model of a top-level or nested Python statement, carrying exactly the
structure the rewriter inspects: an expression statement whose value is a
string literal (the docstring shape), a `from ... import ...` statement
(with its module name, distinguishing `__future__` imports), a function
definition (its positional parameters abstracted to whether each carries
an annotation, its return annotation to presence, plus its decorator
list and body), or any other statement.  Every constructor carries the
node's optional source location (`lineno`/`col_offset`/`end_lineno`/
`end_col_offset` attributes). -/
inductive Stmt where
  | exprStr (loc : Option SrcLoc)
  | importFrom (module : String) (names : List String) (loc : Option SrcLoc)
  | funcDef (name : String) (args_annotated : List Bool)
      (has_returns : Bool) (decorator_list : List Deco) (body : List Stmt)
      (loc : Option SrcLoc)
  | otherStmt (loc : Option SrcLoc)

/-- Model of `_copy_node_code_metadata`: assign the four position fields
of the source node onto the target node.  When the source node carries no
position attributes at all — as `ast.Module` nodes never do — CPython
would raise an `AttributeError` on the very first read; the model leaves
the target's location unchanged in that case, which suffices to observe
which source node the rewriter copies from. -/
def copy_node_code_metadata (node_src_loc node_trg_loc : Option SrcLoc) :
    Option SrcLoc :=
  match node_src_loc with
  | some l =>
    some { lineno := l.lineno, col_offset := l.col_offset,
           end_lineno := l.end_lineno, end_col_offset := l.end_col_offset }
  | none => node_trg_loc

/-- The docstring test of `visit_Module`: `isinstance(child, Expr) and
isinstance(child.value, Str)`. -/
def stmt_is_docstring : Stmt → Bool
  | .exprStr _ => true
  | _ => false

/-- The future-import test of `visit_Module`: `isinstance(child,
ImportFrom) and child.module == '__future__'`. -/
def stmt_is_future_import : Stmt → Bool
  | .importFrom m _ _ => m == "__future__"
  | _ => false

/-- The scanning loop of `visit_Module`: `for import_beartype_index,
module_child in enumerate(node.body)` with `import_beartype_index`
initialized to `-1`.  The loop body only `continue`s past
docstring/future-import children and contains no `break`, so both
branches of the test proceed to the next iteration identically and the
loop always runs to exhaustion, leaving the index at the position of the
LAST child (`-1` only for an empty body). -/
def module_scan_index : Int → Nat → List Stmt → Int
  | idx, _, [] => idx
  | _, i, s :: rest =>
    if stmt_is_docstring s || stmt_is_future_import s then
      module_scan_index (Int.ofNat i) (i + 1) rest
    else
      module_scan_index (Int.ofNat i) (i + 1) rest

/-- The synthesized `from beartype._decor.decorcore import
beartype_object_safe` statement. -/
def import_beartype_stmt (loc : Option SrcLoc) : Stmt :=
  .importFrom "beartype._decor.decorcore" ["beartype_object_safe"] loc

/-- Python `list.insert(i, x)` at an in-range index. -/
def py_list_insert (l : List Stmt) (i : Nat) (x : Stmt) : List Stmt :=
  l.take i ++ x :: l.drop i

/-- The positional-parameter scan of `visit_FunctionDef`: iterate
`node.args.args` and stop at the first annotated parameter. -/
def args_any_annotated : List Bool → Bool
  | [] => false
  | a :: rest => if a then true else args_any_annotated rest

/-- The typedness test of `visit_FunctionDef`: `bool(node.returns)`, and
only when that is false the positional-parameter scan. -/
def funcdef_is_typed (has_returns : Bool) (args_annotated : List Bool) : Bool :=
  if has_returns then true else args_any_annotated args_annotated

mutual

/-- Model of the recursive visit dispatched by `generic_visit`:
`visit_FunctionDef` fires on every function definition node, appending
the `beartype_object_safe` decoration reference (its metadata copied from
the function definition node) to the END of the decorator list exactly
when the definition is typed, then recursing into the body; every other
statement kind is left unchanged (its visitable children are not
function definitions in this model). -/
def visit_stmt : Stmt → Stmt
  | .funcDef name args_annotated has_returns decorator_list body loc =>
    let decorator_list2 :=
      if funcdef_is_typed has_returns args_annotated then
        decorator_list ++
          [Deco.nameLoad "beartype_object_safe"
            (copy_node_code_metadata loc none)]
      else decorator_list
    .funcDef name args_annotated has_returns decorator_list2
      (visit_stmts body) loc
  | s => s

/-- The recursive visit over a statement list (the bodies walked by
`generic_visit`). -/
def visit_stmts : List Stmt → List Stmt
  | [] => []
  | s :: rest => visit_stmt s :: visit_stmts rest

end

/-- Model of `BeartypeNodeTransformer.visit_Module` on a module with the
given body: compute the insertion index by the scanning loop; if the body
is non-empty, synthesize the import statement, copy metadata onto it with
`node_src=node` — the `ast.Module` parent node itself, which carries no
position attributes — and insert it at the computed index; then
`generic_visit` recursively transforms all children. -/
def visit_Module (body : List Stmt) : List Stmt :=
  let import_beartype_index := module_scan_index (-1) 0 body
  let body2 :=
    if import_beartype_index ≠ -1 then
      py_list_insert body import_beartype_index.toNat
        (import_beartype_stmt (copy_node_code_metadata none none))
    else body
  visit_stmts body2

/-! ## Shared lemmas about association-list stores -/

theorem alookup_append_of_some {α : Type} {l1 l2 : List (String × α)}
    {k : String} {v : α} (h : alookup l1 k = some v) :
    alookup (l1 ++ l2) k = some v := by
  induction l1 with
  | nil => simp [alookup] at h
  | cons p rest ih =>
    obtain ⟨a, b⟩ := p
    by_cases hk : a = k
    · simp_all [alookup]
    · simp only [alookup, if_neg hk] at h
      simpa [alookup, if_neg hk] using ih h

theorem alookup_append_of_none {α : Type} {l1 : List (String × α)}
    {k : String} (l2 : List (String × α)) (h : alookup l1 k = none) :
    alookup (l1 ++ l2) k = alookup l2 k := by
  induction l1 with
  | nil => simp [alookup]
  | cons p rest ih =>
    obtain ⟨a, b⟩ := p
    by_cases hk : a = k
    · simp [alookup, if_pos hk] at h
    · simp only [alookup, if_neg hk] at h
      simpa [alookup, List.cons_append, if_neg hk] using ih h

theorem mem_keys_of_tcontains {st : Typistry} {k : String}
    (h : tcontains st k = true) : k ∈ st.map Prod.fst := by
  induction st with
  | nil => simp [tcontains, alookup] at h
  | cons p rest ih =>
    obtain ⟨a, b⟩ := p
    by_cases hk : a = k
    · simp [hk]
    · simp only [tcontains, alookup, if_neg hk] at h
      simpa using Or.inr (ih h)

/-! ## Freshness of the tuple-key disambiguation loop -/

theorem countP_len_succ_lt {l : List String} {x : String} (hx : x ∈ l) :
    l.countP (fun k => decide (x.length + 1 ≤ k.length)) <
      l.countP (fun k => decide (x.length ≤ k.length)) := by
  induction l with
  | nil => cases hx
  | cons a t ih =>
    have hmono : t.countP (fun k => decide (x.length + 1 ≤ k.length)) ≤
        t.countP (fun k => decide (x.length ≤ k.length)) :=
      List.countP_mono_left (by
        intro y _ hy
        simp only [decide_eq_true_eq] at hy ⊢
        omega)
    rcases List.mem_cons.mp hx with h | h
    · subst h
      simp only [List.countP_cons, decide_eq_true_eq]
      rw [if_neg (by omega), if_pos (Nat.le_refl _)]
      omega
    · have := ih h
      simp only [List.countP_cons, decide_eq_true_eq]
      by_cases h1 : x.length + 1 ≤ a.length
      · rw [if_pos h1, if_pos (by omega)]
        omega
      · rw [if_neg h1]
        by_cases h0 : x.length ≤ a.length
        · rw [if_pos h0]
          omega
        · rw [if_neg h0]
          omega

theorem uniquify_name_loop_fresh :
    ∀ (fuel : Nat) (st : Typistry) (name : String),
      (st.map Prod.fst).countP (fun k => decide (name.length ≤ k.length)) <
        fuel →
      tcontains st (uniquify_name_loop fuel st name) = false := by
  intro fuel
  induction fuel with
  | zero => intro st name h; omega
  | succ n ih =>
    intro st name h
    by_cases hc : tcontains st name = true
    · have hmem := mem_keys_of_tcontains hc
      have hlt := countP_len_succ_lt (x := name) hmem
      have hone : ("~" : String).length = 1 := rfl
      have hlen : (name ++ "~").length = name.length + 1 := by
        rw [String.length_append, hone]
      rw [uniquify_name_loop, if_pos hc]
      apply ih
      simp only [hlen]
      omega
    · rw [uniquify_name_loop, if_neg hc]
      simpa using hc

theorem uniquify_name_fresh (st : Typistry) (name : String) :
    tcontains st (uniquify_name st name) = false := by
  apply uniquify_name_loop_fresh
  have := List.countP_le_length
    (l := st.map Prod.fst) (p := fun k => decide (name.length ≤ k.length))
  simp only [List.length_map] at this
  omega

theorem uniquify_name_loop_isPrefix :
    ∀ (fuel : Nat) (st : Typistry) (name : String) (pre : List Char),
      pre <+: name.data → pre <+: (uniquify_name_loop fuel st name).data := by
  intro fuel
  induction fuel with
  | zero => intro st name pre h; simpa [uniquify_name_loop] using h
  | succ n ih =>
    intro st name pre h
    by_cases hc : tcontains st name = true
    · rw [uniquify_name_loop, if_pos hc]
      apply ih
      have hdata : (name ++ "~").data = name.data ++ "~".data := rfl
      rw [hdata]
      exact h.trans (List.prefix_append name.data _)
    · rw [uniquify_name_loop, if_neg hc]
      exact h

theorem uniquify_name_startswith (st : Typistry) (h : String) :
    str_startswith
      (uniquify_name st (TYPISTRY_HINT_NAME_TUPLE_PREFIX ++ h))
      TYPISTRY_HINT_NAME_TUPLE_PREFIX = true := by
  have hp : TYPISTRY_HINT_NAME_TUPLE_PREFIX.data <+:
      (TYPISTRY_HINT_NAME_TUPLE_PREFIX ++ h).data := by
    have hdata : (TYPISTRY_HINT_NAME_TUPLE_PREFIX ++ h).data =
        TYPISTRY_HINT_NAME_TUPLE_PREFIX.data ++ h.data := rfl
    rw [hdata]
    exact List.prefix_append _ _
  have := uniquify_name_loop_isPrefix
    ((st.length + 1)) st (TYPISTRY_HINT_NAME_TUPLE_PREFIX ++ h)
    TYPISTRY_HINT_NAME_TUPLE_PREFIX.data hp
  simpa [str_startswith, uniquify_name, List.isPrefixOf_iff_prefix] using this

/-! ## Lemmas about the package cache -/

theorem setChild_self {l : List (String × PkgTrie)} {b : String}
    {v : PkgTrie} (h : alookup l b = some v) : setChild l b v = l := by
  induction l with
  | nil => simp [alookup] at h
  | cons p rest ih =>
    obtain ⟨a, t⟩ := p
    by_cases hk : a = b
    · subst hk
      have h2 : t = v := by simpa [alookup] using h
      subst h2
      simp [setChild]
    · simp only [alookup, if_neg hk] at h
      simp [setChild, hk, ih h]

theorem PkgTrie.eta (t : PkgTrie) : PkgTrie.node t.conf t.children = t := by
  cases t
  rfl

theorem registerBasenames_already (conf : Conf) :
    ∀ (path : List String) (t : PkgTrie) (c : Conf),
      terminal_conf t path = some c →
      (conf = c → registerBasenames conf t path = .ok t) ∧
      (conf ≠ c → registerBasenames conf t path =
        .error (.registrationConflict c conf)) := by
  intro path
  induction path with
  | nil =>
    intro t c h
    simp only [terminal_conf] at h
    constructor
    · intro hc
      subst hc
      simp [registerBasenames, h]
    · intro hc
      simp [registerBasenames, h, Ne.symm hc]
  | cons b rest ih =>
    intro t c h
    simp only [terminal_conf] at h
    cases hb : alookup t.children b with
    | none => rw [hb] at h; cases h
    | some sub =>
      rw [hb] at h
      have ihs := ih sub c h
      constructor
      · intro hc
        simp only [registerBasenames, hb, ihs.1 hc]
        rw [setChild_self hb, PkgTrie.eta]
      · intro hc
        simp only [registerBasenames, hb, ihs.2 hc]

/-! ## Claims about the package-scope cache -/

/-- C2 (code_bug evaluation): after registering "pkg.sub" with a
configuration into the empty cache, the scope-cache query returns FALSE
for "pkg.sub.mod" (the claim and the spec say true), and even for
"pkg.sub" itself: the walk's `elif` tests the root cache's
`conf_if_registered` — already known to be `None` on that path — instead
of the visited node's, so the segment walk can never return true. -/
theorem is_package_registered_child_of_registered_false :
    register_packages PkgTrie.empty ["pkg.sub"] 0 =
      .ok (.node none [("pkg", .node none [("sub", .node (some 0) [])])]) ∧
    is_package_registered
      (.node none [("pkg", .node none [("sub", .node (some 0) [])])])
      "pkg.sub.mod" = false ∧
    is_package_registered
      (.node none [("pkg", .node none [("sub", .node (some 0) [])])])
      "pkg.sub" = false ∧
    is_package_registered
      (.node none [("pkg", .node none [("sub", .node (some 0) [])])])
      "pkg.other" = false ∧
    is_package_registered
      (.node none [("pkg", .node none [("sub", .node (some 0) [])])])
      "pkg" = false :=
  ⟨rfl, rfl, rfl, rfl, rfl⟩

/-- C5: for every scope path (a valid dotted name) whose terminal node
already carries configuration `c`, registering that path again with the
identical configuration is a silent no-op returning the cache unchanged,
and registering it with a different configuration raises the
registration-conflict error identifying the old and the new
configurations. -/
theorem register_packages_repeat_conflict (root : PkgTrie) (name : String)
    (c c2 : Conf) (hvalid : is_identifier name = true)
    (hreg : terminal_conf root (py_split_dot name) = some c) :
    register_packages root [name] c = .ok root ∧
    (c2 ≠ c → register_packages root [name] c2 =
      .error (.registrationConflict c c2)) := by
  constructor
  · have h1 : registerBasenames c root (py_split_dot name) = .ok root :=
      (registerBasenames_already c _ root c hreg).1 rfl
    simp [register_packages, hvalid, register_packages_each, h1]
  · intro hne
    have h2 : registerBasenames c2 root (py_split_dot name) =
        .error (.registrationConflict c c2) :=
      (registerBasenames_already c2 _ root c hreg).2 hne
    simp [register_packages, hvalid, register_packages_each, h2]

/-- Witness for `register_packages_repeat_conflict` at the concrete cache
holding "pkg" with configuration 7: re-registering with 7 is a no-op and
re-registering with 8 is the conflict error naming 7 (old) and 8 (new). -/
theorem register_packages_repeat_conflict_witness :
    register_packages (.node none [("pkg", .node (some 7) [])]) ["pkg"] 7 =
      .ok (.node none [("pkg", .node (some 7) [])]) ∧
    register_packages (.node none [("pkg", .node (some 7) [])]) ["pkg"] 8 =
      .error (.registrationConflict 7 8) := by
  have h := register_packages_repeat_conflict
    (.node none [("pkg", .node (some 7) [])]) "pkg" 7 8 (by decide) rfl
  exact ⟨h.1, h.2 (by decide)⟩

/-- C10: in a cache whose root node carries a configuration while the
top-level mapping holds no keys, the emptiness query
`is_packages_registered_any` is false although `is_package_registered` is
true for every name: global-only registration is invisible to the
emptiness query. -/
theorem global_registration_invisible_to_any (c : Conf) (name : String) :
    is_packages_registered_any (.node (some c) []) = false ∧
    is_package_registered (.node (some c) []) name = true :=
  ⟨rfl, rfl⟩

/-! ## Claims about the AST rewriter -/

theorem args_any_annotated_eq_any (l : List Bool) :
    args_any_annotated l = l.any (fun a => a) := by
  induction l with
  | nil => rfl
  | cons a rest ih =>
    cases a <;> simp [args_any_annotated, ih]

/-- C3 (code_bug evaluation): on a module of two ordinary statements the
rewriter inserts the decoration import at index 1 — always at
`len(body) - 1`, since the scanning loop has no `break` and its index
ends on the last child — instead of at index 0, the first position not
occupied by a leading docstring or future import; an empty module is
left alone.  (For the spec's example `[docstring, future-import, def]`
the insertion lands at the third position only by accident of the typed
definition being the last statement.) -/
theorem module_import_inserted_at_last_index :
    visit_Module [.otherStmt (some ⟨1, 0, 1, 5⟩),
                  .otherStmt (some ⟨2, 0, 2, 5⟩)] =
      [.otherStmt (some ⟨1, 0, 1, 5⟩),
       import_beartype_stmt none,
       .otherStmt (some ⟨2, 0, 2, 5⟩)] ∧
    visit_Module [] = [] :=
  ⟨rfl, rfl⟩

/-- C4: the rewriter appends the `beartype_object_safe` decoration
reference to a function definition's decorator list if and only if the
definition carries a return annotation or, when it carries none, some
positional parameter carries an annotation; when appended, the reference
is appended LAST in the decorator list, and an untyped definition's
decorator list is left unchanged (the body being recursed into either
way). -/
theorem visit_FunctionDef_decorates_iff_typed (name : String)
    (args_annotated : List Bool) (has_returns : Bool)
    (decorator_list : List Deco) (body : List Stmt) (loc : Option SrcLoc) :
    visit_stmt
      (.funcDef name args_annotated has_returns decorator_list body loc) =
    .funcDef name args_annotated has_returns
      (if has_returns || args_annotated.any (fun a => a) then
        decorator_list ++ [Deco.nameLoad "beartype_object_safe" loc]
       else decorator_list)
      (visit_stmts body) loc := by
  have hcopy : copy_node_code_metadata loc none = loc := by
    cases loc <;> rfl
  cases has_returns <;>
    simp [visit_stmt, funcdef_is_typed, args_any_annotated_eq_any, hcopy]

/-- C7 (code_bug evaluation): the synthesized import's position metadata
is copied with `node_src=node`, the `ast.Module` parent node — which
carries no position attributes — for EVERY non-empty module, never from
the statement at the insertion point: here that statement carries
location (1,0,1,5) yet the injected import carries none.  The second
conjunct shows the copy helper itself does transfer the four position
fields when handed a located source node, so the defect is purely the
call site's choice of source node. -/
theorem import_metadata_copied_from_module_node :
    visit_Module [.otherStmt (some ⟨1, 0, 1, 5⟩)] =
      [.importFrom "beartype._decor.decorcore" ["beartype_object_safe"] none,
       .otherStmt (some ⟨1, 0, 1, 5⟩)] ∧
    copy_node_code_metadata (some ⟨1, 0, 1, 5⟩) none = some ⟨1, 0, 1, 5⟩ :=
  ⟨rfl, rfl⟩

/-! ## Claims about the hint registry -/

theorem alookup_eq_none_of_not_tcontains {st : Typistry} {k : String}
    (h : tcontains st k = false) : alookup st k = none := by
  cases hv : alookup st k with
  | none => rfl
  | some v => simp [tcontains, hv] at h

/-- C1 (code_bug evaluation): looking up the missing key "m.C" in an
empty beartypistry, with module "m" declaring class "C", dynamically
resolves and returns the class — but the store comes back UNCHANGED
(still empty), so the name is not registered and every subsequent lookup
misses again and repeats the dynamic import.  `Beartypistry.__missing__`
returns the class without inserting it, and CPython's `dict.__getitem__`
does not insert a `__missing__` result (only
`collections.defaultdict.__missing__` stores, by its own explicit
assignment), although the method's closing comment claims the superclass
"implicitly maps the passed missing key to this class". -/
theorem missing_lookup_resolves_without_storing :
    Beartypistry_getitem [("m", [("C", .cls "m.C" false)])] [] "m.C" =
      .ok ([], .cls "m.C" false) ∧
    alookup ([] : Typistry) "m.C" = none :=
  ⟨rfl, rfl⟩

/-- C6 counterexample: inserting the class `builtins.list` under the key
"garbage" SUCCEEDS and stores the pair, although the claim's error
condition holds there (the key differs from the class's fully-qualified
name and the key is no reserved builtin short name): the claim's
raise-iff biconditional is false at this input, because the source keys
the exemption on the class's own fully-qualified classname being
builtin, not on the key. -/
theorem setitem_builtin_exemption_counterexample :
    Beartypistry_setitem [] (.str "garbage") (.cls "builtins.list" false) =
      .ok [("garbage", .cls "builtins.list" false)] ∧
    setitem_error_claimed [] (.str "garbage") (.cls "builtins.list" false) =
      true ∧
    ¬ (exceptIsOk (Beartypistry_setitem [] (.str "garbage")
          (.cls "builtins.list" false)) = false ↔
        setitem_error_claimed [] (.str "garbage")
          (.cls "builtins.list" false) = true) := by
  refine ⟨rfl, by decide, fun h => ?_⟩
  exact absurd (h.mpr (by decide)) (by decide)

/-- C6 (amended): every insertion into the registry store raises if and
only if the key is not a string, or the key is already present, or the
value is a class whose own fully-qualified name differs from the key AND
whose fully-qualified classname is not that of a builtin class (the
exemption keys on the class's classname, not on the key), or the value
is a tuple whose key lacks the reserved tuple prefix or that contains a
non-plain-class element, or the value is neither class nor tuple;
otherwise the pair is appended to the store. -/
theorem setitem_guard_characterization (st : Typistry) (hint : Hint) :
    (∀ key, exceptIsOk (Beartypistry_setitem st key hint) = false ↔
      setitem_error_actual st key hint = true) ∧
    (∀ name, setitem_error_actual st (.str name) hint = false →
      Beartypistry_setitem st (.str name) hint =
        .ok (st ++ [(name, hint)])) := by
  constructor
  · intro key
    cases key with
    | notStr => simp [Beartypistry_setitem, exceptIsOk, setitem_error_actual]
    | str name =>
      by_cases hc : tcontains st name
      · simp [Beartypistry_setitem, exceptIsOk, setitem_error_actual, hc]
      · cases hint with
        | cls clsname pep =>
          by_cases hn : name = clsname
          · subst hn
            simp [Beartypistry_setitem, exceptIsOk, setitem_error_actual, hc]
          · by_cases hb : is_classname_builtin clsname
            · simp [Beartypistry_setitem, exceptIsOk, setitem_error_actual,
                hc, hn, hb]
            · simp [Beartypistry_setitem, exceptIsOk, setitem_error_actual,
                hc, hn, hb]
        | tup elems =>
          by_cases ha : elems.all is_hint_nonpep_item
          · by_cases hp :
              str_startswith name TYPISTRY_HINT_NAME_TUPLE_PREFIX
            · simp [Beartypistry_setitem, exceptIsOk, setitem_error_actual,
                hc, ha, hp]
            · simp [Beartypistry_setitem, exceptIsOk, setitem_error_actual,
                hc, ha, hp]
          · simp [Beartypistry_setitem, exceptIsOk, setitem_error_actual,
              hc, ha]
        | other =>
          simp [Beartypistry_setitem, exceptIsOk, setitem_error_actual, hc]
  · intro name hfalse
    cases hint with
    | cls clsname pep =>
      by_cases hc : tcontains st name
      · simp [setitem_error_actual, hc] at hfalse
      · simp only [setitem_error_actual, hc, Bool.false_or,
          Bool.and_eq_false_iff, bne_eq_false_iff_eq,
          Bool.not_eq_false] at hfalse
        rcases hfalse with hn | hb
        · subst hn
          simp [Beartypistry_setitem, hc]
        · have hb2 : is_classname_builtin clsname = true := by simpa using hb
          simp [Beartypistry_setitem, hc, hb2]
    | tup elems =>
      by_cases hc : tcontains st name
      · simp [setitem_error_actual, hc] at hfalse
      · simp only [setitem_error_actual, hc, Bool.false_or,
          Bool.or_eq_false_iff, Bool.not_eq_false] at hfalse
        have h1 : str_startswith name TYPISTRY_HINT_NAME_TUPLE_PREFIX = true := by
          simpa using hfalse.1
        have h2 : elems.all is_hint_nonpep_item = true := by
          simpa using hfalse.2
        simp [Beartypistry_setitem, hc, h1, h2]
    | other =>
      simp [setitem_error_actual] at hfalse

theorem setitem_fresh_tuple {st : Typistry} {k : String} {elems : List Hint}
    (hfree : tcontains st k = false)
    (hpre : str_startswith k TYPISTRY_HINT_NAME_TUPLE_PREFIX = true)
    (hnonpep : elems.all is_hint_nonpep_item = true) :
    Beartypistry_setitem st (.str k) (.tup elems) =
      .ok (st ++ [(k, .tup elems)]) := by
  simp [Beartypistry_setitem, hfree, hpre, hnonpep]

/-- C8: registering two distinct multi-element tuples of plain classes
whose hash-derived keys collide both succeeds and returns distinct keys:
the first is stored under the disambiguated form of its hash key, the
second registration disambiguates its (colliding) hash key by appending
the marker character until an unused key is found, and afterwards each
key maps back to its own tuple without ambiguity. -/
theorem tuple_hash_collision_disambiguation
    (pyhash : List Hint → Int) (pyset_dedup : List Hint → List Hint)
    (st : Typistry) (A B : List Hint)
    (hA2 : 2 ≤ A.length) (hB2 : 2 ≤ B.length) (hAB : A ≠ B)
    (hhash : pyhash A = pyhash B)
    (hpepA : A.all is_hint_nonpep_item = true)
    (hpepB : B.all is_hint_nonpep_item = true) :
    ∃ kA kB,
      kA = uniquify_name st
        (TYPISTRY_HINT_NAME_TUPLE_PREFIX ++ toString (pyhash A)) ∧
      kB = uniquify_name (st ++ [(kA, .tup A)])
        (TYPISTRY_HINT_NAME_TUPLE_PREFIX ++ toString (pyhash B)) ∧
      register_typistry_tuple pyhash pyset_dedup st (.tup A) true =
        .ok (typistry_code kA, st ++ [(kA, .tup A)]) ∧
      register_typistry_tuple pyhash pyset_dedup (st ++ [(kA, .tup A)])
          (.tup B) true =
        .ok (typistry_code kB, st ++ [(kA, .tup A)] ++ [(kB, .tup B)]) ∧
      kA ≠ kB ∧
      alookup (st ++ [(kA, .tup A)] ++ [(kB, .tup B)]) kA = some (.tup A) ∧
      alookup (st ++ [(kA, .tup A)] ++ [(kB, .tup B)]) kB = some (.tup B) := by
  obtain ⟨a1, a2, restA, rfl⟩ : ∃ a1 a2 restA, A = a1 :: a2 :: restA := by
    cases A with
    | nil => simp at hA2
    | cons a1 A1 =>
      cases A1 with
      | nil => simp at hA2
      | cons a2 restA => exact ⟨a1, a2, restA, rfl⟩
  obtain ⟨b1, b2, restB, rfl⟩ : ∃ b1 b2 restB, B = b1 :: b2 :: restB := by
    cases B with
    | nil => simp at hB2
    | cons b1 B1 =>
      cases B1 with
      | nil => simp at hB2
      | cons b2 restB => exact ⟨b1, b2, restB, rfl⟩
  refine ⟨_, _, rfl, rfl, ?_, ?_, ?_, ?_, ?_⟩
  · have hfree := uniquify_name_fresh st
      (TYPISTRY_HINT_NAME_TUPLE_PREFIX ++ toString (pyhash (a1 :: a2 :: restA)))
    have hpre := uniquify_name_startswith st
      (toString (pyhash (a1 :: a2 :: restA)))
    simp only [register_typistry_tuple, if_true,
      setitem_fresh_tuple hfree hpre hpepA]
  · have hfree := uniquify_name_fresh
      (st ++ [(uniquify_name st
        (TYPISTRY_HINT_NAME_TUPLE_PREFIX ++
          toString (pyhash (a1 :: a2 :: restA))), .tup (a1 :: a2 :: restA))])
      (TYPISTRY_HINT_NAME_TUPLE_PREFIX ++ toString (pyhash (b1 :: b2 :: restB)))
    have hpre := uniquify_name_startswith
      (st ++ [(uniquify_name st
        (TYPISTRY_HINT_NAME_TUPLE_PREFIX ++
          toString (pyhash (a1 :: a2 :: restA))), .tup (a1 :: a2 :: restA))])
      (toString (pyhash (b1 :: b2 :: restB)))
    simp only [register_typistry_tuple, if_true,
      setitem_fresh_tuple hfree hpre hpepB]
  · intro heq
    have hfreeB := uniquify_name_fresh
      (st ++ [(uniquify_name st
        (TYPISTRY_HINT_NAME_TUPLE_PREFIX ++
          toString (pyhash (a1 :: a2 :: restA))), .tup (a1 :: a2 :: restA))])
      (TYPISTRY_HINT_NAME_TUPLE_PREFIX ++ toString (pyhash (b1 :: b2 :: restB)))
    rw [← heq] at hfreeB
    have hfreeA := uniquify_name_fresh st
      (TYPISTRY_HINT_NAME_TUPLE_PREFIX ++ toString (pyhash (a1 :: a2 :: restA)))
    have hmem : alookup
        (st ++ [(uniquify_name st
          (TYPISTRY_HINT_NAME_TUPLE_PREFIX ++
            toString (pyhash (a1 :: a2 :: restA))), .tup (a1 :: a2 :: restA))])
        (uniquify_name st
          (TYPISTRY_HINT_NAME_TUPLE_PREFIX ++
            toString (pyhash (a1 :: a2 :: restA)))) =
        some (.tup (a1 :: a2 :: restA)) := by
      rw [alookup_append_of_none _ (alookup_eq_none_of_not_tcontains hfreeA)]
      simp [alookup]
    simp [tcontains, hmem] at hfreeB
  · have hfreeA := uniquify_name_fresh st
      (TYPISTRY_HINT_NAME_TUPLE_PREFIX ++ toString (pyhash (a1 :: a2 :: restA)))
    rw [alookup_append_of_some]
    rw [alookup_append_of_none _ (alookup_eq_none_of_not_tcontains hfreeA)]
    simp [alookup]
  · have hfreeB := uniquify_name_fresh
      (st ++ [(uniquify_name st
        (TYPISTRY_HINT_NAME_TUPLE_PREFIX ++
          toString (pyhash (a1 :: a2 :: restA))), .tup (a1 :: a2 :: restA))])
      (TYPISTRY_HINT_NAME_TUPLE_PREFIX ++ toString (pyhash (b1 :: b2 :: restB)))
    rw [alookup_append_of_none _ (alookup_eq_none_of_not_tcontains hfreeB)]
    simp [alookup]

/-- Witness for `tuple_hash_collision_disambiguation`: under the constant
hash, the 2-tuples (a.A, a.B) and (a.C, a.D) both key to "+0"; the first
is stored under "+0", the second under "+0~", and both look up back. -/
theorem tuple_hash_collision_disambiguation_witness :
    ∃ kA kB,
      kA = uniquify_name []
        (TYPISTRY_HINT_NAME_TUPLE_PREFIX ++ toString (0 : Int)) ∧
      kB = uniquify_name
        ([] ++ [(kA, Hint.tup [Hint.cls "a.A" false, Hint.cls "a.B" false])])
        (TYPISTRY_HINT_NAME_TUPLE_PREFIX ++ toString (0 : Int)) ∧
      register_typistry_tuple (fun _ => 0) (fun l => l) []
          (Hint.tup [Hint.cls "a.A" false, Hint.cls "a.B" false]) true =
        .ok (typistry_code kA,
          [] ++ [(kA, Hint.tup [Hint.cls "a.A" false, Hint.cls "a.B" false])]) ∧
      register_typistry_tuple (fun _ => 0) (fun l => l)
          ([] ++ [(kA, Hint.tup [Hint.cls "a.A" false, Hint.cls "a.B" false])])
          (Hint.tup [Hint.cls "a.C" false, Hint.cls "a.D" false]) true =
        .ok (typistry_code kB,
          [] ++ [(kA, Hint.tup [Hint.cls "a.A" false, Hint.cls "a.B" false])] ++
            [(kB, Hint.tup [Hint.cls "a.C" false, Hint.cls "a.D" false])]) ∧
      kA ≠ kB ∧
      alookup
        ([] ++ [(kA, Hint.tup [Hint.cls "a.A" false, Hint.cls "a.B" false])] ++
          [(kB, Hint.tup [Hint.cls "a.C" false, Hint.cls "a.D" false])]) kA =
        some (Hint.tup [Hint.cls "a.A" false, Hint.cls "a.B" false]) ∧
      alookup
        ([] ++ [(kA, Hint.tup [Hint.cls "a.A" false, Hint.cls "a.B" false])] ++
          [(kB, Hint.tup [Hint.cls "a.C" false, Hint.cls "a.D" false])]) kB =
        some (Hint.tup [Hint.cls "a.C" false, Hint.cls "a.D" false]) :=
  tuple_hash_collision_disambiguation (fun _ => 0) (fun l => l) []
    [Hint.cls "a.A" false, Hint.cls "a.B" false]
    [Hint.cls "a.C" false, Hint.cls "a.D" false]
    (by decide) (by decide) (by simp) rfl (by decide) (by decide)

theorem import_module_attr_error_shape {exc : String → TypistryErr}
    {env : PyEnv} {n : String} {e : TypistryErr}
    (h : import_module_attr exc env n = .error e) : ∃ m, e = exc m := by
  simp only [import_module_attr, import_module_attr_or_none] at h
  by_cases hv : is_module_attr_name n
  · rw [if_pos hv] at h
    cases hm : alookup env (rpartition_dot n).1 with
    | none =>
      simp only [hm] at h
      exact ⟨_, (Except.error.injEq _ _).mp h.symm⟩
    | some attrs =>
      simp only [hm] at h
      cases ha : alookup attrs (rpartition_dot n).2 with
      | none =>
        simp only [ha] at h
        exact ⟨_, (Except.error.injEq _ _).mp h.symm⟩
      | some a =>
        simp only [ha] at h
        cases h
  · rw [if_neg hv] at h
    exact ⟨_, (Except.error.injEq _ _).mp h.symm⟩

/-- C9: `register_typistry_forwardref` raises the validation error if and
only if the passed name is not a syntactically valid dotted attribute
path; for a valid name it returns the lookup expression — performing
no import and inserting nothing, as its signature involves neither
the importable world nor the store; only a later lookup of a key not in
the store raises the resolvable-reference error when the name does not
resolve to a class, and succeeds returning the class once it does. -/
theorem forwardref_registration_lazy (name : String) (env : PyEnv)
    (st : Typistry) (habsent : alookup st name = none) :
    ((∃ m, register_typistry_forwardref name = .error (.forwardRefDecor m)) ↔
      is_module_attr_name name = false) ∧
    (is_module_attr_name name = true →
      register_typistry_forwardref name = .ok (typistry_code name)) ∧
    (resolve_class env name = none →
      ∃ m, Beartypistry_getitem env st name = .error (.forwardRefCall m)) ∧
    (∀ c p, resolve_class env name = some (.cls c p) →
      Beartypistry_getitem env st name = .ok (st, .cls c p)) := by
  refine ⟨?_, ?_, ?_, ?_⟩
  · by_cases hv : is_module_attr_name name
    · simp [register_typistry_forwardref, hv]
    · simp only [register_typistry_forwardref, if_neg hv]
      constructor
      · intro _
        simpa using hv
      · intro _
        exact ⟨_, rfl⟩
  · intro hv
    simp [register_typistry_forwardref, hv]
  · intro hnone
    cases himp : import_module_attr TypistryErr.forwardRefCall env name with
    | error e =>
      obtain ⟨m, rfl⟩ := import_module_attr_error_shape himp
      exact ⟨m, by simp [Beartypistry_getitem, habsent, Beartypistry_missing, himp]⟩
    | ok v =>
      cases v with
      | cls c p => simp [resolve_class, himp] at hnone
      | tup elems =>
        exact ⟨"Forward reference value not class: " ++ name,
          by simp [Beartypistry_getitem, habsent, Beartypistry_missing, himp]⟩
      | other =>
        exact ⟨"Forward reference value not class: " ++ name,
          by simp [Beartypistry_getitem, habsent, Beartypistry_missing, himp]⟩
  · intro c p hsome
    cases himp : import_module_attr TypistryErr.forwardRefCall env name with
    | error e => simp [resolve_class, himp] at hsome
    | ok v =>
      cases v with
      | cls c0 p0 =>
        simp only [resolve_class, himp, Option.some.injEq] at hsome
        rw [← hsome]
        simp [Beartypistry_getitem, habsent, Beartypistry_missing, himp]
      | tup elems => simp [resolve_class, himp] at hsome
      | other => simp [resolve_class, himp] at hsome

/-- Witness for `forwardref_registration_lazy` in the world where module
"m" declares only class "C": registering the reference "m.C" yields the
lookup expression; looking up the unresolvable "m.D" in an empty store
raises the resolvable-reference error; looking up "m.C" succeeds and
returns the class. -/
theorem forwardref_registration_lazy_witness :
    register_typistry_forwardref "m.C" = .ok (typistry_code "m.C") ∧
    (∃ m, Beartypistry_getitem [("m", [("C", Hint.cls "m.C" false)])] [] "m.D" =
      .error (.forwardRefCall m)) ∧
    Beartypistry_getitem [("m", [("C", Hint.cls "m.C" false)])] [] "m.C" =
      .ok ([], Hint.cls "m.C" false) := by
  have h1 := forwardref_registration_lazy "m.C"
    [("m", [("C", Hint.cls "m.C" false)])] [] rfl
  have h2 := forwardref_registration_lazy "m.D"
    [("m", [("C", Hint.cls "m.C" false)])] [] rfl
  exact ⟨h1.2.1 rfl, h2.2.2.1 rfl, h1.2.2.2 "m.C" false rfl⟩

end Beartype
